import Mathlib

/-!
Verification development for the TagonPy routing subsystem.

This file gives a shallow embedding, in Lean 4, of the routing,
parameter-matching and middleware/guard orchestration engine of the
repository (files src/core/routing/middleware_chain.py, route_guards.py,
router_manager.py, route_discovery.py, dynamic_params.py and
src/core/middlewares/base_middleware.py), together with theorems about
the embedded definitions.

Modelling conventions:
- Python dicts are modelled as association lists with unique keys reachable
  by construction; lookup takes the first matching entry.
- A middleware or guard call on a fixed request either returns a value or
  raises; we embed the outcome of the call for the request under
  consideration as data (a returned optional dictionary, or an exception
  carrying its message).  The request object itself carries no information
  used by the routing code being verified, so it is left implicit.
- Logging (print calls) is ignored: it does not affect any claim.
-/

namespace TagonPy

/-- Lookup in a Python dict modelled as an association list (first match). -/
def dictGet {α : Type} (d : List (String × α)) (k : String) : Option α :=
  (d.find? (fun p => p.1 == k)).map (fun p => p.2)

/-- Assignment d[k] = v in a Python dict: overwrite the entry if the key is
present, otherwise append a new entry. -/
def dictSet {α : Type} (d : List (String × α)) (k : String) (v : α) : List (String × α) :=
  if (d.find? (fun p => p.1 == k)).isSome then
    d.map (fun p => if p.1 == k then (k, v) else p)
  else d ++ [(k, v)]

/-- Request-scoped context: a Python dict of string keys and values.  The
values carried by middleware fragments are opaque to the routing code, so we
model them as strings. -/
abbrev Ctx := List (String × String)

/-- Python dict.update: merge the fragment into the accumulator, the
fragment's entries overwriting existing keys. -/
def ctxUpdate (c : Ctx) (frag : Ctx) : Ctx :=
  frag.foldl (fun acc p => dictSet acc p.1 p.2) c

/-- Outcome of one middleware call (before_request or after_request) on the
request under consideration: the Python call returns an optional dict or
raises an exception (err carries the exception message). -/
inductive CallOutcome where
  | ok : Option Ctx → CallOutcome
  | err : String → CallOutcome
deriving DecidableEq

/-- A middleware object as seen by the chain (middlewares/base_middleware.py
BaseMiddleware): a priority attribute (optional, since middleware_chain.py
reads it with getattr(..., 'priority', 50)), the enabled flag, and the
outcomes of its two phase methods for the request under consideration. -/
structure Mw where
  priorityAttr : Option Int
  enabled : Bool
  beforeR : CallOutcome
  afterR : CallOutcome
deriving DecidableEq

/-- State of middleware_chain.py MiddlewareChain: the name-keyed middleware
dict and the priority-ordered execution_order list. -/
structure MiddlewareChain where
  middlewares : List (String × Mw)
  execution_order : List String
deriving DecidableEq

/-- Insertion scan of MiddlewareChain.register_middleware: walk
execution_order and insert the new name at the first position whose existing
middleware's priority attribute (default 50) is strictly greater than the
new priority; append at the end if no such position exists. -/
def insertByPriority (ms : List (String × Mw)) (priority : Int) (mwName : String) :
    List String → List String
  | [] => [mwName]
  | n :: rest =>
    let existing := ((dictGet ms n).bind (fun m => m.priorityAttr)).getD 50
    if priority < existing then mwName :: n :: rest
    else n :: insertByPriority ms priority mwName rest

/-- MiddlewareChain.register_middleware: store the middleware under its name,
then insert the name into execution_order by priority (the scan reads the
updated dict, as the Python code does). -/
def MiddlewareChain.register_middleware (chain : MiddlewareChain) (mwName : String)
    (mw : Mw) (priority : Int) : MiddlewareChain :=
  let ms := dictSet chain.middlewares mwName mw
  { middlewares := ms,
    execution_order := insertByPriority ms priority mwName chain.execution_order }

/-- Effect of one middleware call outcome on the accumulated context: a
returned dict is merged in (Python "if result: context.update(result)"), a
falsy result leaves it unchanged, and an exception is caught (and logged)
leaving it unchanged. -/
def outcomeEffect : CallOutcome → Ctx → Ctx
  | CallOutcome.ok (some frag), ctx => ctxUpdate ctx frag
  | CallOutcome.ok none, ctx => ctx
  | CallOutcome.err _, ctx => ctx

/-- Shared loop of execute_before / execute_after: iterate the given names,
skip names absent from the middleware dict, call the selected phase method
of each present middleware and apply its outcome to the context.  The first
component of the result records the sequence of middleware invoked by the
loop (an instrumentation needed to state ordering claims); the second
component is the context the Python method returns. -/
def runPhase (ms : List (String × Mw)) (sel : Mw → CallOutcome) :
    List String → Ctx → List String × Ctx
  | [], ctx => ([], ctx)
  | n :: rest, ctx =>
    match dictGet ms n with
    | none => runPhase ms sel rest ctx
    | some mw =>
      let r := runPhase ms sel rest (outcomeEffect (sel mw) ctx)
      (n :: r.1, r.2)

/-- MiddlewareChain.execute_before: run the before phase over the supplied
names in the order supplied.  The Python method returns the second
component; the first records the invocation sequence. -/
def MiddlewareChain.execute_before (chain : MiddlewareChain) (names : List String) :
    List String × Ctx :=
  runPhase chain.middlewares (fun m => m.beforeR) names []

/-- MiddlewareChain.execute_after: run the after phase over the supplied
names in reversed order (the Python loop is over reversed(middleware_names)). -/
def MiddlewareChain.execute_after (chain : MiddlewareChain) (names : List String) :
    List String × Ctx :=
  runPhase chain.middlewares (fun m => m.afterR) names.reverse []

/-- Predicate for a name being registered in the chain's middleware dict. -/
def MiddlewareChain.registered (chain : MiddlewareChain) (n : String) : Bool :=
  (dictGet chain.middlewares n).isSome

/-- Result dict of a guard's can_activate call.  The Python code reads the
keys with result.get, so each key is optional. -/
structure GuardResult where
  allowed? : Option Bool
  message? : Option String
  status_code? : Option Int
deriving DecidableEq

/-- Outcome of invoking a guard's can_activate on the request under
consideration: either a returned result dict, or an exception carrying its
message. -/
inductive GuardCall where
  | ret : GuardResult → GuardCall
  | exn : String → GuardCall
deriving DecidableEq

/-- State of route_guards.py RouteGuard: the name-keyed guard dict. -/
structure RouteGuard where
  guards : List (String × GuardCall)
deriving DecidableEq

/-- RouteGuard.check_guards: walk the guard names in the order supplied,
skipping names absent from the dict; return the first result whose allowed
key (default True) is false; on an exception return the fail-closed denial
with status_code 500; return allowed True when no guard denies. -/
def RouteGuard.check_guards (rg : RouteGuard) : List String → GuardResult
  | [] => { allowed? := some true, message? := none, status_code? := none }
  | g :: rest =>
    match dictGet rg.guards g with
    | none => rg.check_guards rest
    | some (GuardCall.ret r) =>
      if r.allowed?.getD true then rg.check_guards rest else r
    | some (GuardCall.exn m) =>
      { allowed? := some false,
        message? := some ("Guard execution error: " ++ m),
        status_code? := some 500 }

/-- A middleware callable as registered in RouterManager.middleware_registry:
the outcome of calling it with phase "before" and with phase "after" on the
request under consideration. -/
structure RMw where
  beforeC : CallOutcome
  afterC : CallOutcome
deriving DecidableEq

/-- Phase argument of RouterManager._execute_middlewares. -/
inductive Phase where
  | before : Phase
  | after : Phase
deriving DecidableEq

/-- Selection of a registered callable's outcome for the given phase
argument of RouterManager._execute_middlewares. -/
def phaseCall (phase : Phase) (m : RMw) : CallOutcome :=
  match phase with
  | Phase.before => m.beforeC
  | Phase.after => m.afterC

/-- RouterManager._execute_middlewares: iterate the route's middleware
names, skipping unregistered names; merge each non-falsy result into the
context; an exception is caught (logged) and contributes nothing. -/
def execute_middlewares (reg : List (String × RMw)) (phase : Phase) :
    List String → Ctx → Ctx
  | [], ctx => ctx
  | n :: rest, ctx =>
    match dictGet reg n with
    | none => execute_middlewares reg phase rest ctx
    | some m => execute_middlewares reg phase rest (outcomeEffect (phaseCall phase m) ctx)

/-- RouterManager._execute_guards: like RouteGuard.check_guards but, on an
exception, the returned denial carries no status_code key. -/
def execute_guards (greg : List (String × GuardCall)) : List String → GuardResult
  | [] => { allowed? := some true, message? := none, status_code? := none }
  | g :: rest =>
    match dictGet greg g with
    | none => execute_guards greg rest
    | some (GuardCall.ret r) =>
      if r.allowed?.getD true then execute_guards greg rest else r
    | some (GuardCall.exn _) =>
      { allowed? := some false,
        message? := some "Guard execution error",
        status_code? := none }

/-- Route descriptor of models.py RouteConfig (after __post_init__ filled
the None defaults). -/
structure RouteConfig where
  path : String
  component_path : String
  middlewares : List String
  guards : List String
  params : Ctx
  layout : Option String
deriving DecidableEq

/-- Component context assembled by RouterManager._handle_route_request step 4
(keys request, params, query, middleware_data, plus the route's static
params).  The request object carries no routing-relevant data and is left
implicit. -/
structure RenderCtx where
  route_params : Ctx
  query : Ctx
  middleware_data : Ctx
  static_params : Ctx
deriving DecidableEq

/-- Outcome of the external renderer on a given context: HTML, or an
exception carrying its message (re-raised by _render_component). -/
inductive RenderOutcome where
  | ok : String → RenderOutcome
  | err : String → RenderOutcome
deriving DecidableEq

/-- An HTTP response as produced by the handler: status code and body. -/
structure Response where
  status : Int
  body : String
deriving DecidableEq

/-- String form of a FastAPI/Starlette HTTPException (its __str__ renders
"status_code: detail"), as it appears via str(error) in the error page. -/
def httpExceptionToString (status : Int) (detail : String) : String :=
  toString status ++ ": " ++ detail

/-- Body of RouterManager._render_error_response, abbreviated to its dynamic
fields (the static HTML and CSS chrome of the template carries no
information any claim depends on). -/
def renderErrorBody (routePath componentPath errText : String) : String :=
  "TagonPy - Erro na Rota. Rota: " ++ routePath ++ " Componente: " ++ componentPath
    ++ " Erro: " ++ errText

/-- RouterManager._handle_route_request.  Steps: run before-middlewares,
evaluate guards; on denial, the code raises HTTPException with the guard's
status_code (default 403) and message (default "Access denied"), which the
surrounding blanket except catches, so the emitted response is the 500
error page around str of that exception.  Otherwise the component is
rendered with the assembled context: success yields a 200 response with the
HTML (after-middlewares run afterwards with no observable effect on the
response), and a renderer exception yields the 500 error page around its
message. -/
def handle_route_request (mreg : List (String × RMw)) (greg : List (String × GuardCall))
    (render : RenderCtx → RenderOutcome) (route_params query_params : Ctx)
    (config : RouteConfig) : Response :=
  let middleware_context := execute_middlewares mreg Phase.before config.middlewares []
  let guard_result := execute_guards greg config.guards
  if guard_result.allowed?.getD true then
    match render ⟨route_params, query_params, middleware_context, config.params⟩ with
    | RenderOutcome.ok html => { status := 200, body := html }
    | RenderOutcome.err m =>
      { status := 500, body := renderErrorBody config.path config.component_path m }
  else
    { status := 500,
      body := renderErrorBody config.path config.component_path
        (httpExceptionToString (guard_result.status_code?.getD 403)
          (guard_result.message?.getD "Access denied")) }

/-! Route discovery (src/core/routing/route_discovery.py).  The file system
walk is modelled by its result: the list of file paths found under the
pages directory (relative, with '/' separators, as produced by os.path.relpath
after separator normalisation) paired with the outcome of reading each file. -/

/-- Outcome of reading one page file: its content, or an I/O error. -/
inductive ReadOutcome where
  | ok : String → ReadOutcome
  | ioError : String → ReadOutcome
deriving DecidableEq

/-- Configuration directives extracted from one page file by
_parse_route_config. -/
structure Directives where
  middlewares : List String
  guards : List String
  layout : Option String
deriving DecidableEq

/-- Default configuration of _parse_route_config before (or instead of) any
directive extraction. -/
def defaultDirectives : Directives :=
  { middlewares := [], guards := [], layout := none }

/-- Split of a character list at every occurrence of a separator character
(the Python str.split with a one-character separator; empty pieces are
kept). -/
def splitOnCharAux (sep : Char) : List Char → List Char → List (List Char)
  | [], acc => [acc.reverse]
  | c :: rest, acc =>
    if c = sep then acc.reverse :: splitOnCharAux sep rest []
    else splitOnCharAux sep rest (c :: acc)

/-- Split a character list on a separator character. -/
def splitOnChar (sep : Char) (cs : List Char) : List (List Char) :=
  splitOnCharAux sep cs []

/-- Suffix test on strings via their character lists. -/
def strEndsWith (s suffix : String) : Bool :=
  suffix.toList.isSuffixOf s.toList

/-- Prefix test on strings via their character lists. -/
def strStartsWith (s pre : String) : Bool :=
  pre.toList.isPrefixOf s.toList

/-- Whitespace characters matched by a Python regex backslash-s class. -/
def isPySpace (c : Char) : Bool :=
  c = ' ' || c = '\t' || c = '\n' || c = '\x0d' || c = '\x0b' || c = '\x0c'

/-- Drop a maximal run of regex whitespace (the greedy backslash-s-star). -/
def dropSpaces (cs : List Char) : List Char :=
  cs.dropWhile isPySpace

/-- Case-insensitive literal match of a lowercase keyword against the head
of the text, returning the remainder on success. -/
def stripKeyCI (key : List Char) (cs : List Char) : Option (List Char) :=
  match key, cs with
  | [], rest => some rest
  | _ :: _, [] => none
  | k :: ks, c :: cs1 => if c.toLower = k then stripKeyCI ks cs1 else none

/-- Capture of the final greedy dot-plus group of the directive patterns,
starting from the text after the colon: first drop the maximal whitespace
run; if a character remains it is not whitespace (hence not a newline) and
the capture is the run up to the next newline; otherwise the regex engine
backtracks inside the whitespace run and captures the last character of it
that is not a newline, if any. -/
def captureDotPlus (cs : List Char) : Option (List Char) :=
  let w := cs.takeWhile isPySpace
  let rest := cs.drop w.length
  if rest.isEmpty then
    match (w.filter (fun c => c ≠ '\n')).getLast? with
    | some c => some [c]
    | none => none
  else some (rest.takeWhile (fun c => c ≠ '\n'))

/-- Attempt to match one directive pattern (hash, whitespace, at-sign,
keyword with an optional trailing s, whitespace, colon, whitespace, dot-plus
capture) at the start of the given text, returning the captured group. -/
def matchDirectiveAt (key : List Char) (allowS : Bool) (cs : List Char) :
    Option (List Char) :=
  match cs with
  | [] => none
  | c :: cs1 =>
    if c = '#' then
      match dropSpaces cs1 with
      | '@' :: cs3 =>
        match stripKeyCI key cs3 with
        | none => none
        | some cs4 =>
          let cs5 := if allowS then
              match cs4 with
              | c4 :: rest4 => if c4.toLower = 's' then rest4 else cs4
              | [] => cs4
            else cs4
          match dropSpaces cs5 with
          | ':' :: cs7 => captureDotPlus cs7
          | _ => none
      | _ => none
    else none

/-- Leftmost match of a directive pattern anywhere in the content (re.findall
followed by taking matches[0]). -/
def findDirective (key : List Char) (allowS : Bool) : List Char → Option (List Char)
  | [] => none
  | c :: rest =>
    match matchDirectiveAt key allowS (c :: rest) with
    | some cap => some cap
    | none => findDirective key allowS rest

/-- Strip of Python str.strip on the whitespace characters of the regex
whitespace class. -/
def pyStrip (s : String) : String :=
  String.mk (((s.toList.dropWhile isPySpace).reverse.dropWhile isPySpace).reverse)

/-- Comma split, item strip and empty filter applied to a captured
middlewares or guards directive value. -/
def splitCommaStrip (cap : List Char) : List String :=
  (((splitOnChar ',' cap).map (fun l => pyStrip (String.mk l))).filter (fun s => s ≠ ""))

/-- RouteDiscovery._parse_route_config: on an I/O error the defaults are
returned (the error is logged); otherwise the three directive patterns are
searched in the content, comma values split and stripped, the layout value
stripped. -/
def parse_route_config (ro : ReadOutcome) : Directives :=
  match ro with
  | ReadOutcome.ioError _ => defaultDirectives
  | ReadOutcome.ok content =>
    let cs := content.toList
    let mwList := match findDirective ("middleware".toList) true cs with
      | none => []
      | some cap => splitCommaStrip cap
    let gList := match findDirective ("guard".toList) true cs with
      | none => []
      | some cap => splitCommaStrip cap
    let lay := match findDirective ("layout".toList) false cs with
      | none => none
      | some cap => some (pyStrip (String.mk cap))
    { middlewares := mwList, guards := gList, layout := lay }

/-- Root part of os.path.splitext for '/'-separated paths: cut the extension
at the last dot of the last path component, ignoring leading dots of that
component. -/
def splitextRoot (p : String) : String :=
  let cs := p.toList
  let base := (cs.reverse.takeWhile (fun c => c ≠ '/')).reverse
  let dir := cs.take (cs.length - base.length)
  let ld := base.takeWhile (fun c => c = '.')
  let rest := base.drop ld.length
  let extLen := (rest.reverse.takeWhile (fun c => c ≠ '.')).length
  if extLen < rest.length then
    String.mk (dir ++ ld ++ rest.take (rest.length - extLen - 1))
  else p

/-- File-to-route-path conversion of _analyze_file_route: strip the
extension, collapse a trailing or sole index segment, prefix a slash if
missing.  (Separator normalisation is the identity here since the modelled
walk already yields '/'-separated relative paths.) -/
def filePathToRoutePath (rel : String) : String :=
  let rp := splitextRoot rel
  let rpShort := String.mk (rp.toList.take (rp.toList.length - 6))
  let rp2 :=
    if strEndsWith rp "/index" then
      (if rpShort = "" then "/" else rpShort)
    else if rp = "index" then "/"
    else rp
  if strStartsWith rp2 "/" then rp2 else "/" ++ rp2

/-- RouteDiscovery._analyze_file_route: build the RouteConfig for one page
file from its path and parsed directives.  The component_path is the file's
path (modelled relative to the pages root). -/
def analyze_file_route (entry : String × ReadOutcome) : RouteConfig :=
  let cfg := parse_route_config entry.2
  { path := filePathToRoutePath entry.1,
    component_path := entry.1,
    middlewares := cfg.middlewares,
    guards := cfg.guards,
    params := [],
    layout := cfg.layout }

/-- Split of the text following an opening bracket by the regex token body:
one or more characters other than a closing bracket, then the closing
bracket.  Returns the token's inner text and the remainder after the
closing bracket. -/
def tokenSplit (cs : List Char) : Option (List Char × List Char) :=
  match cs with
  | [] => none
  | c :: rest =>
    if c = ']' then none
    else
      let inner := rest.takeWhile (fun a => a ≠ ']')
      match rest.drop inner.length with
      | ']' :: after => some (c :: inner, after)
      | _ => none

theorem tokenSplit_length {cs : List Char} {inner after : List Char}
    (h : tokenSplit cs = some (inner, after)) : after.length < cs.length := by
  match cs with
  | [] => simp [tokenSplit] at h
  | c :: rest =>
    simp only [tokenSplit] at h
    by_cases hc : c = ']'
    · simp [hc] at h
    · simp only [hc, if_false] at h
      rcases hd : rest.drop (rest.takeWhile (fun a => a ≠ ']')).length with _ | ⟨d, after'⟩
      · rw [hd] at h; simp at h
      · rw [hd] at h
        by_cases hdc : d = ']'
        · subst hdc
          simp at h
          have hlen := congrArg List.length hd
          simp only [List.length_drop, List.length_cons] at hlen
          have hae : after' = after := h.2
          subst hae
          simp only [List.length_cons]
          omega
        · simp [hdc] at h

/-- Template token: a literal character kept by re.sub, or a bracket token
carrying its inner text. -/
inductive TTok where
  | lit : Char → TTok
  | cap : String → TTok
deriving DecidableEq

/-- Fueled form of the leftmost non-overlapping bracket-token scan.  The
fuel, initialised to the text length, only makes the recursion structural
(each step consumes at least one character, so fuel never runs out); it is
not part of the modelled algorithm. -/
def templateTokensFuel : Nat → List Char → List TTok
  | 0, _ => []
  | _ + 1, [] => []
  | fuel + 1, c :: rest =>
    if c = '[' then
      match tokenSplit rest with
      | some (inner, after) => TTok.cap (String.mk inner) :: templateTokensFuel fuel after
      | none => TTok.lit c :: templateTokensFuel fuel rest
    else TTok.lit c :: templateTokensFuel fuel rest

/-- Leftmost non-overlapping scan for bracket tokens shared by re.sub and
re.findall on the dynamic-token pattern: each well-formed bracket token
becomes a capture token carrying its inner text; every other character is a
literal. -/
def templateTokens (l : List Char) : List TTok :=
  templateTokensFuel l.length l

/-- Result of re.sub deleting every bracket token from the path: the literal
characters of the token scan. -/
def stripBracketTokens (l : List Char) : List Char :=
  (templateTokens l).filterMap (fun t => match t with | TTok.lit c => some c | TTok.cap _ => none)

/-- Substring containment test (the Python in operator on strings). -/
def listContainsSub (needle : List Char) : List Char → Bool
  | [] => needle.isEmpty
  | c :: rest => needle.isPrefixOf (c :: rest) || listContainsSub needle rest

/-- Body of RouteDiscovery._route_specificity_score as a function of the
route's path (the only field the method reads), computed sequentially as in
the source: start at 0; add 100 if the path contains both an opening and a
closing bracket character; add 200 if it contains the substring of an
opening bracket followed by three dots; subtract 10 per slash; subtract the
number of characters left after deleting every bracket token. -/
def pathSpecificityScore (pathStr : String) : Int :=
  let path := pathStr.toList
  let score0 : Int := 0
  let score1 := if path.contains '[' && path.contains ']' then score0 + 100 else score0
  let score2 := if listContainsSub ("[...".toList) path then score1 + 200 else score1
  let score3 := score2 - 10 * (path.filter (fun c => c = '/')).length
  score3 - (stripBracketTokens path).length

/-- RouteDiscovery._route_specificity_score. -/
def route_specificity_score (cfg : RouteConfig) : Int :=
  pathSpecificityScore cfg.path

/-- Ordering relation used to sort discovered routes: ascending specificity
score. -/
def scoreLE (a b : RouteConfig) : Prop :=
  route_specificity_score a ≤ route_specificity_score b

instance : DecidableRel scoreLE := fun a b => by
  unfold scoreLE; infer_instance

instance : IsTotal RouteConfig scoreLE :=
  ⟨fun a b => Int.le_total (route_specificity_score a) (route_specificity_score b)⟩

instance : IsTrans RouteConfig scoreLE :=
  ⟨fun _ _ _ h1 h2 => le_trans h1 h2⟩

/-- RouteDiscovery.discover_routes on a walked file tree: keep the files
with the page extension, build one RouteConfig per file, sort ascending by
specificity score (Python list.sort is a stable sort; so is insertion
sort, hence the outputs coincide). -/
def discover_routes (files : List (String × ReadOutcome)) : List RouteConfig :=
  List.insertionSort scoreLE
    ((files.filter (fun e => strEndsWith e.1 ".tg")).map analyze_file_route)

/-! Dynamic parameters (src/core/routing/dynamic_params.py). -/

/-- Greedy backtracking loop of one wildcard-segment capture group: try the
longest candidate capture first (the maximal run of non-slash characters),
then shorter ones down to length one, accepting the first for which the
rest of the pattern matches the remaining text. -/
def tryCapLen (f : List Char → Option (List String)) (cs : List Char) :
    Nat → Option (List String)
  | 0 => none
  | k + 1 =>
    match f (cs.drop (k + 1)) with
    | some vs => some (String.mk (cs.take (k + 1)) :: vs)
    | none => tryCapLen f cs k

/-- Anchored match of the token sequence derived from a route template
against a concrete path, returning the captured values in order.  A literal
token consumes its exact character; a capture token consumes a nonempty run
of non-slash characters, greedily with backtracking, as the regex derived
by re.sub does. -/
def matchToks : List TTok → List Char → Option (List String)
  | [], cs => if cs.isEmpty then some [] else none
  | TTok.lit _ :: _, [] => none
  | TTok.lit c :: ts, a :: as => if a = c then matchToks ts as else none
  | TTok.cap _ :: ts, cs => tryCapLen (matchToks ts) cs (cs.takeWhile (fun c => c ≠ '/')).length

/-- Typed parameter value produced by ParamValidator.validate_param: a
parsed integer, a parsed float (kept as its validated literal, since no
claim depends on float arithmetic), or a string. -/
inductive PValue where
  | pInt : Int → PValue
  | pFloat : String → PValue
  | pStr : String → PValue
deriving DecidableEq

/-- Digit character of the regex digit class (ASCII model). -/
def isDigitChar (c : Char) : Bool := '0' ≤ c && c ≤ '9'

/-- Lowercase hexadecimal digit. -/
def isHexLower (c : Char) : Bool := isDigitChar c || ('a' ≤ c && c ≤ 'f')

/-- Lowercase letter or digit. -/
def isLowerAlnum (c : Char) : Bool := isDigitChar c || ('a' ≤ c && c ≤ 'z')

/-- Character class of the string pattern: letters, digits, underscore,
hyphen. -/
def isStringPatChar (c : Char) : Bool :=
  isDigitChar c || ('a' ≤ c && c ≤ 'z') || ('A' ≤ c && c ≤ 'Z') || c = '_' || c = '-'

/-- Anchored int pattern: one or more digits. -/
def isIntPat (s : String) : Bool := !s.isEmpty && s.toList.all isDigitChar

/-- Anchored float pattern: digits, one dot, digits. -/
def isFloatPat (s : String) : Bool :=
  match splitOnChar '.' s.toList with
  | [a, b] => !a.isEmpty && a.all isDigitChar && !b.isEmpty && b.all isDigitChar
  | _ => false

/-- Anchored string pattern: one or more characters of the string class. -/
def isStringPat (s : String) : Bool := !s.isEmpty && s.toList.all isStringPatChar

/-- Anchored slug pattern: lowercase alphanumeric groups separated by single
hyphens. -/
def isSlugPat (s : String) : Bool :=
  (splitOnChar '-' s.toList).all (fun part => !part.isEmpty && part.all isLowerAlnum)

/-- Anchored uuid pattern: the canonical five lowercase hexadecimal groups of
lengths 8-4-4-4-12. -/
def isUuidPat (s : String) : Bool :=
  match splitOnChar '-' s.toList with
  | [a, b, c, d, e] =>
    a.length = 8 && b.length = 4 && c.length = 4 && d.length = 4 && e.length = 12
      && (a ++ b ++ c ++ d ++ e).all isHexLower
  | _ => false

/-- Keys of ParamValidator.type_patterns. -/
def knownParamTypes : List String := ["int", "float", "string", "slug", "uuid"]

/-- Pattern of ParamValidator.type_patterns for a known type tag. -/
def typePatternMatch (ptype : String) (value : String) : Bool :=
  if ptype = "int" then isIntPat value
  else if ptype = "float" then isFloatPat value
  else if ptype = "string" then isStringPat value
  else if ptype = "slug" then isSlugPat value
  else isUuidPat value

/-- Parsed integer of a digit string (the Python int constructor on a value
the int pattern accepted). -/
def strToInt (s : String) : Int :=
  s.toList.foldl (fun n c => n * 10 + (Int.ofNat (c.toNat - '0'.toNat))) 0

/-- ParamValidator.validate_param: unknown type tags accept the raw value;
otherwise the value is matched against the type's pattern, a failure
yielding invalid with no converted value, a success yielding the parsed
integer, the float literal, or the string itself. -/
def validate_param (value : String) (ptype : String) : Bool × Option PValue :=
  if !(knownParamTypes.contains ptype) then (true, some (PValue.pStr value))
  else if !(typePatternMatch ptype value) then (false, none)
  else if ptype = "int" then (true, some (PValue.pInt (strToInt value)))
  else if ptype = "float" then (true, some (PValue.pFloat value))
  else (true, some (PValue.pStr value))

/-- State of DynamicParams: the per-route parameter type configuration. -/
structure DynamicParams where
  route_param_configs : List (String × List (String × String))
deriving DecidableEq

/-- DynamicParams.extract_route_params: tokenize the template (re.sub giving
the matching pattern, re.findall giving the parameter names), match the
actual path; on a mismatch return the empty mapping; otherwise validate each
captured value against its configured type (default string), keeping the
converted value when valid and the raw string when validation fails. -/
def DynamicParams.extract_route_params (dp : DynamicParams)
    (template actual : String) : List (String × PValue) :=
  let toks := templateTokens template.toList
  let names := toks.filterMap (fun t => match t with
    | TTok.cap n => some n
    | TTok.lit _ => none)
  match matchToks toks actual.toList with
  | none => []
  | some values =>
    (names.zip values).foldl (fun ps nv =>
      let ptype := match dictGet dp.route_param_configs template with
        | some conf => (dictGet conf nv.1).getD "string"
        | none => "string"
      let vr := validate_param nv.2 ptype
      if vr.1 then dictSet ps nv.1 (vr.2.getD (PValue.pStr nv.2))
      else dictSet ps nv.1 (PValue.pStr nv.2)) []

/-! Modifier functions used to state isolation and invariance properties:
they rewrite one registered entry of a registry, leaving everything else
unchanged. -/

/-- Rewrite the value stored under one key of a dict, leaving other entries
unchanged (the key set is preserved). -/
def mapAdjust {α : Type} (ms : List (String × α)) (n : String) (f : α → α) :
    List (String × α) :=
  ms.map (fun p => if p.1 == n then (p.1, f p.2) else p)

/-- Chain with the enabled flag of one middleware set (the effect of
BaseMiddleware.enable or BaseMiddleware.disable on a registered object). -/
def MiddlewareChain.setEnabled (chain : MiddlewareChain) (n : String) (b : Bool) :
    MiddlewareChain :=
  { chain with middlewares := mapAdjust chain.middlewares n (fun m => { m with enabled := b }) }

/-- Chain with the before_request outcome of one middleware replaced. -/
def MiddlewareChain.setBeforeOutcome (chain : MiddlewareChain) (n : String)
    (o : CallOutcome) : MiddlewareChain :=
  { chain with middlewares := mapAdjust chain.middlewares n (fun m => { m with beforeR := o }) }

/-- Chain with the after_request outcome of one middleware replaced. -/
def MiddlewareChain.setAfterOutcome (chain : MiddlewareChain) (n : String)
    (o : CallOutcome) : MiddlewareChain :=
  { chain with middlewares := mapAdjust chain.middlewares n (fun m => { m with afterR := o }) }

/-- Router middleware registry with the before-phase outcome of one
registered callable replaced. -/
def setRegBefore (mreg : List (String × RMw)) (n : String) (o : CallOutcome) :
    List (String × RMw) :=
  mapAdjust mreg n (fun m => { m with beforeC := o })

/-! Helper lemmas. -/

theorem dictGet_mapAdjust {α : Type} (ms : List (String × α)) (n k : String) (f : α → α) :
    dictGet (mapAdjust ms n f) k
      = (dictGet ms k).map (fun v => if k == n then f v else v) := by
  unfold dictGet mapAdjust
  rw [List.find?_map]
  have hpred : ((fun p : String × α => p.1 == k) ∘
      (fun p : String × α => if p.1 == n then (p.1, f p.2) else p))
      = (fun p : String × α => p.1 == k) := by
    funext p
    by_cases h : p.1 == n <;> simp [Function.comp, h]
  rw [hpred]
  cases hf : ms.find? (fun p => p.1 == k) with
  | none => simp
  | some a =>
    have hak : a.1 = k := by simpa using List.find?_some hf
    by_cases hkn : (k == n) = true
    · have han : a.1 = n := by rw [hak]; simpa using hkn
      simp [han, hkn]
    · have han : ¬ a.1 = n := by rw [hak]; simpa using hkn
      simp [han, hkn]

theorem runPhase_fst (ms : List (String × Mw)) (sel : Mw → CallOutcome)
    (names : List String) (ctx : Ctx) :
    (runPhase ms sel names ctx).1 = names.filter (fun n => (dictGet ms n).isSome) := by
  induction names generalizing ctx with
  | nil => simp [runPhase]
  | cons n rest ih =>
    simp only [runPhase]
    cases h : dictGet ms n with
    | none => simp [h, ih, List.filter_cons]
    | some mw => simp [h, ih, List.filter_cons]

theorem runPhase_mapAdjust_sel_eq (ms : List (String × Mw)) (n : String) (f : Mw → Mw)
    (sel : Mw → CallOutcome) (hsel : ∀ m, sel (f m) = sel m)
    (names : List String) (ctx : Ctx) :
    runPhase (mapAdjust ms n f) sel names ctx = runPhase ms sel names ctx := by
  induction names generalizing ctx with
  | nil => simp [runPhase]
  | cons x rest ih =>
    simp only [runPhase, dictGet_mapAdjust]
    cases h : dictGet ms x with
    | none => simp [ih]
    | some mw =>
      by_cases hxn : (x == n) = true
      · simp [hxn, hsel, ih]
      · simp [hxn, ih]

theorem runPhase_mapAdjust_effect_congr (ms : List (String × Mw)) (n : String)
    (f g : Mw → Mw) (sel : Mw → CallOutcome)
    (heff : ∀ m ctx, outcomeEffect (sel (f m)) ctx = outcomeEffect (sel (g m)) ctx)
    (names : List String) (ctx : Ctx) :
    runPhase (mapAdjust ms n f) sel names ctx
      = runPhase (mapAdjust ms n g) sel names ctx := by
  induction names generalizing ctx with
  | nil => simp [runPhase]
  | cons x rest ih =>
    simp only [runPhase, dictGet_mapAdjust]
    cases h : dictGet ms x with
    | none => simp [ih]
    | some mw =>
      by_cases hxn : (x == n) = true
      · simp [hxn, heff, ih]
      · simp [hxn, ih]

theorem execute_middlewares_mapAdjust_effect_congr (reg : List (String × RMw))
    (n : String) (f g : RMw → RMw) (phase : Phase)
    (heff : ∀ m ctx, outcomeEffect (phaseCall phase (f m)) ctx
      = outcomeEffect (phaseCall phase (g m)) ctx)
    (names : List String) (ctx : Ctx) :
    execute_middlewares (mapAdjust reg n f) phase names ctx
      = execute_middlewares (mapAdjust reg n g) phase names ctx := by
  induction names generalizing ctx with
  | nil => simp [execute_middlewares]
  | cons x rest ih =>
    simp only [execute_middlewares, dictGet_mapAdjust]
    cases h : dictGet reg x with
    | none => simp [ih]
    | some mw =>
      by_cases hxn : (x == n) = true
      · simp [hxn, heff, ih]
      · simp [hxn, ih]

theorem check_guards_append_allows (greg : List (String × GuardCall)) (pre rest : List String)
    (hpre : ∀ x ∈ pre, ∀ gc, dictGet greg x = some gc →
      ∃ r, gc = GuardCall.ret r ∧ r.allowed?.getD true = true) :
    RouteGuard.check_guards ⟨greg⟩ (pre ++ rest) = RouteGuard.check_guards ⟨greg⟩ rest := by
  induction pre with
  | nil => rfl
  | cons x pre ih =>
    have hx := hpre x (List.mem_cons_self x pre)
    have ihh := ih (fun y hy => hpre y (List.mem_cons_of_mem x hy))
    simp only [List.cons_append, RouteGuard.check_guards]
    cases h : dictGet greg x with
    | none => exact ihh
    | some gc =>
      obtain ⟨r, rfl, hr⟩ := hx gc h
      simp [hr, ihh]

theorem execute_guards_append_allows (greg : List (String × GuardCall)) (pre rest : List String)
    (hpre : ∀ x ∈ pre, ∀ gc, dictGet greg x = some gc →
      ∃ r, gc = GuardCall.ret r ∧ r.allowed?.getD true = true) :
    execute_guards greg (pre ++ rest) = execute_guards greg rest := by
  induction pre with
  | nil => rfl
  | cons x pre ih =>
    have hx := hpre x (List.mem_cons_self x pre)
    have ihh := ih (fun y hy => hpre y (List.mem_cons_of_mem x hy))
    simp only [List.cons_append, execute_guards]
    cases h : dictGet greg x with
    | none => exact ihh
    | some gc =>
      obtain ⟨r, rfl, hr⟩ := hx gc h
      simp [hr, ihh]

theorem check_guards_skip_unregistered (greg : List (String × GuardCall)) (u : String)
    (hu : dictGet greg u = none) (pre post : List String) :
    RouteGuard.check_guards ⟨greg⟩ (pre ++ u :: post)
      = RouteGuard.check_guards ⟨greg⟩ (pre ++ post) := by
  induction pre with
  | nil =>
    simp only [List.nil_append, RouteGuard.check_guards, hu]
  | cons x pre ih =>
    simp only [List.cons_append, RouteGuard.check_guards]
    cases h : dictGet greg x with
    | none => exact ih
    | some gc =>
      cases gc with
      | ret r =>
        by_cases hr : r.allowed?.getD true = true
        · simp [hr, ih]
        · simp [hr]
      | exn m => rfl

theorem check_guards_all_unregistered (greg : List (String × GuardCall))
    (names : List String) (h : ∀ n ∈ names, dictGet greg n = none) :
    RouteGuard.check_guards ⟨greg⟩ names
      = { allowed? := some true, message? := none, status_code? := none } := by
  induction names with
  | nil => rfl
  | cons x rest ih =>
    simp only [RouteGuard.check_guards, h x (List.mem_cons_self x rest)]
    exact ih (fun y hy => h y (List.mem_cons_of_mem x hy))

theorem execute_guards_all_unregistered (greg : List (String × GuardCall))
    (names : List String) (h : ∀ n ∈ names, dictGet greg n = none) :
    execute_guards greg names
      = { allowed? := some true, message? := none, status_code? := none } := by
  induction names with
  | nil => rfl
  | cons x rest ih =>
    simp only [execute_guards, h x (List.mem_cons_self x rest)]
    exact ih (fun y hy => h y (List.mem_cons_of_mem x hy))

/-! Spec-side definitions.  These follow the wording of the specification
(not the source) and exist only to be compared with the source-derived
definitions above. -/

/-- Test following the spec wording for containing a dynamic token: some
position of the path starts a well-formed bracket token. -/
def specHasDynamicToken : List Char → Bool
  | [] => false
  | c :: rest => (c = '[' && (tokenSplit rest).isSome) || specHasDynamicToken rest

/-- Test for a catch-all token starting at the head of the text: an opening
bracket, three dots, a nonempty run of characters other than a closing
bracket, then the closing bracket. -/
def catchAllAt (cs : List Char) : Bool :=
  match cs with
  | '[' :: '.' :: '.' :: '.' :: rest =>
    let inner := rest.takeWhile (fun a => a ≠ ']')
    !inner.isEmpty && ((rest.drop inner.length).head? = some ']')
  | _ => false

/-- Test following the spec wording for containing a catch-all token. -/
def specHasCatchAllToken : List Char → Bool
  | [] => false
  | c :: rest => catchAllAt (c :: rest) || specHasCatchAllToken rest

/-- Specificity formula exactly as the specification words it: start at 0;
add 200 if the path contains a catch-all token, else add 100 if it contains
any dynamic token (never both additions); subtract 10 per slash-separated
segment; subtract the count of literal characters. -/
def claimedSpecificityScore (p : String) : Int :=
  (if specHasCatchAllToken p.toList then 200
   else if specHasDynamicToken p.toList then 100 else 0)
    - 10 * (((splitOnChar '/' p.toList).filter (fun seg => !seg.isEmpty)).length : Int)
    - ((stripBracketTokens p.toList).length : Int)

/-- Amended specificity formula: 100 for a path containing both bracket
characters, plus 200 more for a path containing an opening bracket followed
by three dots (so a catch-all path receives 300), minus 10 per slash
character, minus the number of characters left after deleting every bracket
token. -/
def amendedSpecificityScore (p : String) : Int :=
  (if p.toList.contains '[' && p.toList.contains ']' then 100 else 0)
    + (if listContainsSub ("[...".toList) p.toList then 200 else 0)
    - 10 * ((p.toList.filter (fun c => c = '/')).length : Int)
    - ((stripBracketTokens p.toList).length : Int)

/-! Concrete objects used by counterexamples and witnesses. -/

/-- Demo middleware with priority attribute 1 writing its own marker key. -/
def mwA : Mw :=
  { priorityAttr := some 1, enabled := true,
    beforeR := CallOutcome.ok (some [("from", "a")]),
    afterR := CallOutcome.ok none }

/-- Demo middleware with priority attribute 2 writing its own marker key. -/
def mwB : Mw :=
  { priorityAttr := some 2, enabled := true,
    beforeR := CallOutcome.ok (some [("from", "b")]),
    afterR := CallOutcome.ok none }

/-- Chain holding mwA (registered with priority 1) and mwB (priority 2). -/
def demoChain : MiddlewareChain :=
  ((MiddlewareChain.mk [] []).register_middleware "a" mwA 1).register_middleware "b" mwB 2

/-- Demo disabled middleware contributing one key in each phase. -/
def mwDisabled : Mw :=
  { priorityAttr := some 5, enabled := false,
    beforeR := CallOutcome.ok (some [("k", "v")]),
    afterR := CallOutcome.ok (some [("ak", "av")]) }

/-- Chain holding only the disabled middleware. -/
def c5Chain : MiddlewareChain :=
  (MiddlewareChain.mk [] []).register_middleware "m" mwDisabled 5

/-- Guard registry holding one always-deny guard returning status 403 and
message forbidden. -/
def c1Greg : List (String × GuardCall) :=
  [("authOnly", GuardCall.ret
    { allowed? := some false, message? := some "forbidden", status_code? := some 403 })]

/-- Route configuration of the dynamic user page guarded by authOnly. -/
def c1Config : RouteConfig :=
  { path := "/user/[id]", component_path := "pages/user/[id].tg",
    middlewares := [], guards := ["authOnly"], params := [], layout := none }

/-! Claim theorems. -/

/-- Claim C1.  The claim states that on a guard denial the emitted response
carries exactly the guard's status code (403 in the scenario) with the
guard's message in the body.  Evaluating the handler at the failing input
shows the guard result does carry status code 403, but the emitted response
has status 500: the handler raises HTTPException with the guard's code
inside its own try block and the blanket except converts it into the 500
error page (whose body embeds the exception text, containing the message). -/
theorem c1_guard_denial_emits_500 :
    (execute_guards c1Greg c1Config.guards).status_code? = some 403 ∧
    handle_route_request [] c1Greg (fun _ => RenderOutcome.ok "<h1>user</h1>")
        [("id", "5")] [] c1Config
      = { status := 500,
          body := renderErrorBody "/user/[id]" "pages/user/[id].tg"
            (httpExceptionToString 403 "forbidden") } := by
  constructor
  · decide
  · decide

/-- Claim C2, counterexample.  The chain registers the priority-1 middleware
before the priority-2 middleware (execution_order lists a before b), yet
when the caller supplies the names in the opposite order the before phase
invokes b first: execute_before iterates the caller-supplied list, not the
globally registered ascending-priority order. -/
theorem c2_counterexample :
    demoChain.execution_order = ["a", "b"] ∧
    (demoChain.execute_before ["b", "a"]).1 = ["b", "a"] ∧
    (demoChain.execute_before ["b", "a"]).1 ≠ demoChain.execution_order := by
  refine ⟨by decide, by decide, by decide⟩

/-- Claim C2, amended.  The before phase invokes the caller-supplied names
in exactly the order supplied (skipping unregistered names), and the after
phase invokes them in exactly the reverse of the caller-supplied order; the
priority-sorted execution_order is not consulted by either phase. -/
theorem c2_amended_caller_order (chain : MiddlewareChain) (names : List String) :
    (chain.execute_before names).1 = names.filter chain.registered ∧
    (chain.execute_after names).1 = (names.filter chain.registered).reverse := by
  constructor
  · exact runPhase_fst chain.middlewares (fun m => m.beforeR) names []
  · rw [MiddlewareChain.execute_after,
      runPhase_fst chain.middlewares (fun m => m.afterR) names.reverse []]
    exact List.filter_reverse _ _

/-- Claim C5, counterexample.  A middleware whose enabled flag is false is
still invoked by both phases and its contributions still reach the merged
context: neither phase consults the flag. -/
theorem c5_counterexample :
    dictGet c5Chain.middlewares "m" = some mwDisabled ∧
    mwDisabled.enabled = false ∧
    (c5Chain.execute_before ["m"]).1 = ["m"] ∧
    dictGet (c5Chain.execute_before ["m"]).2 "k" = some "v" ∧
    (c5Chain.execute_after ["m"]).1 = ["m"] ∧
    dictGet (c5Chain.execute_after ["m"]).2 "ak" = some "av" := by
  refine ⟨by decide, by decide, by decide, by decide, by decide, by decide⟩

/-- Claim C5, amended.  The enabled flag is writable (enable and disable
only set it) but is never consulted by either execution phase: flipping any
middleware's flag changes neither the invocation sequence nor the merged
context of execute_before or execute_after. -/
theorem c5_amended_enabled_ignored (chain : MiddlewareChain) (n : String) (b : Bool)
    (names : List String) :
    (chain.setEnabled n b).execute_before names = chain.execute_before names ∧
    (chain.setEnabled n b).execute_after names = chain.execute_after names := by
  constructor
  · show runPhase (mapAdjust chain.middlewares n (fun m => { m with enabled := b }))
        (fun m => m.beforeR) names []
      = runPhase chain.middlewares (fun m => m.beforeR) names []
    exact runPhase_mapAdjust_sel_eq chain.middlewares n
      (fun m => { m with enabled := b }) (fun m => m.beforeR) (fun _ => rfl) names []
  · show runPhase (mapAdjust chain.middlewares n (fun m => { m with enabled := b }))
        (fun m => m.afterR) names.reverse []
      = runPhase chain.middlewares (fun m => m.afterR) names.reverse []
    exact runPhase_mapAdjust_sel_eq chain.middlewares n
      (fun m => { m with enabled := b }) (fun m => m.afterR) (fun _ => rfl) names.reverse []

/-- Claim C7.  Extracting the id parameter from the user path with the id
configured as int yields the parsed integer 42; with the id configured as
uuid the value 42 fails validation and the raw string is kept, no error
being raised. -/
theorem c7_param_typing :
    DynamicParams.extract_route_params ⟨[("/user/[id]", [("id", "int")])]⟩
        "/user/[id]" "/user/42" = [("id", PValue.pInt 42)] ∧
    DynamicParams.extract_route_params ⟨[("/user/[id]", [("id", "uuid")])]⟩
        "/user/[id]" "/user/42" = [("id", PValue.pStr "42")] := by
  refine ⟨by decide, by decide⟩

/-- Claim C6.  An exception thrown by one middleware's before or after call
is fully isolated: replacing a middleware's call outcome by an exception is
indistinguishable, for both chain phases and for the full request handler,
from that middleware returning nothing — the invocation sequence of the
remaining middleware, the merged context (which lacks the failed
middleware's keys) and the guard and render stages are all unchanged, and
the chain is never aborted. -/
theorem c6_middleware_exception_isolated (chain : MiddlewareChain) (n e : String)
    (names : List String) (mreg : List (String × RMw)) (greg : List (String × GuardCall))
    (render : RenderCtx → RenderOutcome) (rp qp : Ctx) (config : RouteConfig) :
    (chain.setBeforeOutcome n (CallOutcome.err e)).execute_before names
      = (chain.setBeforeOutcome n (CallOutcome.ok none)).execute_before names ∧
    (chain.setAfterOutcome n (CallOutcome.err e)).execute_after names
      = (chain.setAfterOutcome n (CallOutcome.ok none)).execute_after names ∧
    handle_route_request (setRegBefore mreg n (CallOutcome.err e)) greg render rp qp config
      = handle_route_request (setRegBefore mreg n (CallOutcome.ok none)) greg render rp qp
          config := by
  refine ⟨?_, ?_, ?_⟩
  · exact runPhase_mapAdjust_effect_congr chain.middlewares n
      (fun m => { m with beforeR := CallOutcome.err e })
      (fun m => { m with beforeR := CallOutcome.ok none })
      (fun m => m.beforeR) (fun _ _ => rfl) names []
  · exact runPhase_mapAdjust_effect_congr chain.middlewares n
      (fun m => { m with afterR := CallOutcome.err e })
      (fun m => { m with afterR := CallOutcome.ok none })
      (fun m => m.afterR) (fun _ _ => rfl) names.reverse []
  · have hmw := execute_middlewares_mapAdjust_effect_congr mreg n
      (fun m => { m with beforeC := CallOutcome.err e })
      (fun m => { m with beforeC := CallOutcome.ok none })
      Phase.before (fun _ _ => rfl) config.middlewares []
    simp only [handle_route_request, setRegBefore]
    rw [hmw]

/-- Claim C4.  When the first effectual guard among a route's guard names
raises (every registered guard before it allows), RouteGuard.check_guards
returns a denial with allowed false and status_code 500, never a grant, and
the request handler emits a response with status 500. -/
theorem c4_guard_exception_fail_closed (greg : List (String × GuardCall))
    (pre post : List String) (g m : String)
    (hg : dictGet greg g = some (GuardCall.exn m))
    (hpre : ∀ x ∈ pre, ∀ gc, dictGet greg x = some gc →
      ∃ r, gc = GuardCall.ret r ∧ r.allowed?.getD true = true)
    (mreg : List (String × RMw)) (render : RenderCtx → RenderOutcome)
    (rp qp : Ctx) (pathS comp : String) (mws : List String) (ps : Ctx)
    (lay : Option String) :
    (RouteGuard.check_guards ⟨greg⟩ (pre ++ g :: post)).allowed? = some false ∧
    (RouteGuard.check_guards ⟨greg⟩ (pre ++ g :: post)).status_code? = some 500 ∧
    (handle_route_request mreg greg render rp qp
      ⟨pathS, comp, mws, pre ++ g :: post, ps, lay⟩).status = 500 := by
  have hc : RouteGuard.check_guards ⟨greg⟩ (pre ++ g :: post)
      = { allowed? := some false,
          message? := some ("Guard execution error: " ++ m),
          status_code? := some 500 } := by
    rw [check_guards_append_allows greg pre _ hpre]
    simp [RouteGuard.check_guards, hg]
  have he : execute_guards greg (pre ++ g :: post)
      = { allowed? := some false,
          message? := some "Guard execution error",
          status_code? := none } := by
    rw [execute_guards_append_allows greg pre _ hpre]
    simp [execute_guards, hg]
  refine ⟨by rw [hc], by rw [hc], ?_⟩
  simp [handle_route_request, he]

/-- Witness for claim C4 at a concrete input: one registered guard that
raises, listed alone on the route. -/
theorem c4_guard_exception_fail_closed_witness :
    (RouteGuard.check_guards ⟨[("boom", GuardCall.exn "kaput")]⟩ ["boom"]).allowed?
        = some false ∧
    (RouteGuard.check_guards ⟨[("boom", GuardCall.exn "kaput")]⟩ ["boom"]).status_code?
        = some 500 ∧
    (handle_route_request [] [("boom", GuardCall.exn "kaput")]
      (fun _ => RenderOutcome.ok "x") [] []
      ⟨"/p", "p.tg", [], ["boom"], [], none⟩).status = 500 :=
  c4_guard_exception_fail_closed [("boom", GuardCall.exn "kaput")] [] [] "boom" "kaput"
    (by decide) (by intro x hx; cases hx)
    [] (fun _ => RenderOutcome.ok "x") [] [] "/p" "p.tg" [] [] none

/-- Claim C10.  A listed guard name absent from the registry is silently
skipped without affecting the result; when none of a route's guard names is
registered, check_guards returns the pure allowed-true result, and the
request handler proceeds to render, emitting 200 with the rendered HTML —
unknown guard names grant access. -/
theorem c10_unknown_guards_grant (greg : List (String × GuardCall)) (u : String)
    (pre post names : List String)
    (hu : dictGet greg u = none)
    (hnames : ∀ x ∈ names, dictGet greg x = none)
    (mreg : List (String × RMw)) (render : RenderCtx → RenderOutcome) (rp qp : Ctx)
    (pathS comp : String) (mws : List String) (ps : Ctx) (lay : Option String)
    (html : String) (hrender : ∀ ctx, render ctx = RenderOutcome.ok html) :
    RouteGuard.check_guards ⟨greg⟩ (pre ++ u :: post)
      = RouteGuard.check_guards ⟨greg⟩ (pre ++ post) ∧
    RouteGuard.check_guards ⟨greg⟩ names
      = { allowed? := some true, message? := none, status_code? := none } ∧
    handle_route_request mreg greg render rp qp ⟨pathS, comp, mws, names, ps, lay⟩
      = { status := 200, body := html } := by
  refine ⟨check_guards_skip_unregistered greg u hu pre post,
    check_guards_all_unregistered greg names hnames, ?_⟩
  simp [handle_route_request, execute_guards_all_unregistered greg names hnames, hrender]

/-- Witness for claim C10 at a concrete input: an empty guard registry, a
route declaring one unknown guard name. -/
theorem c10_unknown_guards_grant_witness :
    RouteGuard.check_guards ⟨[]⟩ (["ghost2"]) = RouteGuard.check_guards ⟨[]⟩ [] ∧
    RouteGuard.check_guards ⟨[]⟩ ["ghost"]
      = { allowed? := some true, message? := none, status_code? := none } ∧
    handle_route_request [] [] (fun _ => RenderOutcome.ok "page") [] []
      ⟨"/p", "p.tg", [], ["ghost"], [], none⟩ = { status := 200, body := "page" } :=
  c10_unknown_guards_grant [] "ghost2" [] [] ["ghost"] (by decide)
    (by intro x hx; simp at hx; subst hx; decide)
    [] (fun _ => RenderOutcome.ok "page") [] [] "/p" "p.tg" [] [] none "page"
    (fun _ => rfl)

/-- Claim C3, counterexample.  On the catch-all path the specification's
exclusive formula (add 200 for a catch-all, else 100 for a dynamic token)
gives 177, while the code adds both bonuses (the catch-all substring test
and the bracket-characters test both fire) and gives 277. -/
theorem c3_counterexample :
    claimedSpecificityScore "/a/[...x]" = 177 ∧
    route_specificity_score ⟨"/a/[...x]", "pages/a/[...x].tg", [], [], [], none⟩ = 277 ∧
    claimedSpecificityScore "/a/[...x]"
      ≠ route_specificity_score ⟨"/a/[...x]", "pages/a/[...x].tg", [], [], [], none⟩ := by
  refine ⟨by decide, by decide, by decide⟩

/-- Claim C3, amended.  The specificity score equals: 100 if the path
contains both bracket characters, plus 200 more if it contains an opening
bracket followed by three dots (a catch-all path receives both additions,
300 in total), minus 10 per slash character, minus the count of characters
left after deleting every bracket token; and discovered routes are sorted
ascending by this score. -/
theorem c3_amended_score_formula :
    (∀ cfg : RouteConfig, route_specificity_score cfg = amendedSpecificityScore cfg.path) ∧
    (∀ files : List (String × ReadOutcome), List.Sorted scoreLE (discover_routes files)) := by
  constructor
  · intro cfg
    simp only [route_specificity_score, pathSpecificityScore, amendedSpecificityScore]
    split_ifs <;> push_cast <;> ring
  · intro files
    exact List.sorted_insertionSort scoreLE _

/-- Claim C8, counterexample.  A page file whose read raises an I/O error is
not skipped by discovery: it still contributes a route (with the default
empty configuration) to the returned list. -/
theorem c8_counterexample :
    discover_routes [("user/broken.tg", ReadOutcome.ioError "disk")]
      = [{ path := "/user/broken", component_path := "user/broken.tg",
           middlewares := [], guards := [], params := [], layout := none }] ∧
    "/user/broken" ∈ (discover_routes [("user/broken.tg", ReadOutcome.ioError "disk")]).map
        (fun c => c.path) := by
  refine ⟨by decide, by decide⟩

/-- Claim C8, amended.  An I/O error while reading one page file is logged
and only that file's directive extraction is skipped: the file still
contributes a route, carrying the default (empty) configuration — discovery
behaves exactly as if the file were empty — and the scan of the remaining
files completes normally. -/
theorem c8_io_error_defaults (pre post : List (String × ReadOutcome)) (p msg : String) :
    discover_routes (pre ++ (p, ReadOutcome.ioError msg) :: post)
      = discover_routes (pre ++ (p, ReadOutcome.ok "") :: post) ∧
    (strEndsWith p ".tg" = true →
      filePathToRoutePath p
        ∈ (discover_routes (pre ++ (p, ReadOutcome.ioError msg) :: post)).map
            (fun c => c.path)) := by
  have hana : analyze_file_route (p, ReadOutcome.ioError msg)
      = analyze_file_route (p, ReadOutcome.ok "") := rfl
  constructor
  · simp only [discover_routes, List.filter_append, List.filter_cons]
    by_cases hp : strEndsWith p ".tg" = true
    · simp [hp, hana]
    · simp [hp]
  · intro hp
    have hmem1 : (p, ReadOutcome.ioError msg) ∈ pre ++ (p, ReadOutcome.ioError msg) :: post :=
      List.mem_append_right _ (List.mem_cons_self _ _)
    have hmem2 : analyze_file_route (p, ReadOutcome.ioError msg)
        ∈ discover_routes (pre ++ (p, ReadOutcome.ioError msg) :: post) := by
      unfold discover_routes
      exact (List.perm_insertionSort scoreLE _).mem_iff.mpr
        (List.mem_map_of_mem _ (List.mem_filter.mpr ⟨hmem1, hp⟩))
    exact List.mem_map_of_mem _ hmem2

/-- Witness for claim C8 at a concrete input: one file whose read fails. -/
theorem c8_io_error_defaults_witness :
    discover_routes [("a.tg", ReadOutcome.ioError "e")]
      = discover_routes [("a.tg", ReadOutcome.ok "")] ∧
    "/a" ∈ (discover_routes [("a.tg", ReadOutcome.ioError "e")]).map (fun c => c.path) :=
  ⟨(c8_io_error_defaults [] [] "a.tg" "e").1,
   (c8_io_error_defaults [] [] "a.tg" "e").2 (by decide)⟩

/-- Claim C9.  Whenever the walked file tree contains the static settings
page and the dynamic id page (in any enumeration order and with any
contents), discovery returns both routes and every occurrence of the static
route precedes every occurrence of the dynamic one in the sorted output. -/
theorem c9_settings_before_id (files : List (String × ReadOutcome))
    (h1 : ∃ ro, ("user/settings.tg", ro) ∈ files)
    (h2 : ∃ ro, ("user/[id].tg", ro) ∈ files) :
    "/user/settings" ∈ (discover_routes files).map (fun c => c.path) ∧
    "/user/[id]" ∈ (discover_routes files).map (fun c => c.path) ∧
    ∀ i j : Fin (discover_routes files).length,
      ((discover_routes files).get i).path = "/user/[id]" →
      ((discover_routes files).get j).path = "/user/settings" → j < i := by
  obtain ⟨ro1, hm1⟩ := h1
  obtain ⟨ro2, hm2⟩ := h2
  have hin : ∀ (pth : String) (ro : ReadOutcome), (pth, ro) ∈ files →
      strEndsWith pth ".tg" = true →
      filePathToRoutePath pth ∈ (discover_routes files).map (fun c => c.path) := by
    intro pth ro hmem hend
    have hr : analyze_file_route (pth, ro) ∈ discover_routes files := by
      unfold discover_routes
      exact (List.perm_insertionSort scoreLE _).mem_iff.mpr
        (List.mem_map_of_mem _ (List.mem_filter.mpr ⟨hmem, hend⟩))
    exact List.mem_map_of_mem _ hr
  have hset : filePathToRoutePath "user/settings.tg" = "/user/settings" := by decide
  have hid : filePathToRoutePath "user/[id].tg" = "/user/[id]" := by decide
  refine ⟨hset ▸ hin "user/settings.tg" ro1 hm1 (by decide),
    hid ▸ hin "user/[id].tg" ro2 hm2 (by decide), ?_⟩
  intro i j hpi hpj
  by_contra hij
  push_neg at hij
  have hsorted : List.Sorted scoreLE (discover_routes files) :=
    List.sorted_insertionSort scoreLE _
  rcases lt_or_eq_of_le hij with hlt | heq
  · have hrel := hsorted.rel_get_of_lt hlt
    unfold scoreLE route_specificity_score at hrel
    rw [hpi, hpj] at hrel
    exact absurd hrel (by decide)
  · rw [heq] at hpi
    rw [hpi] at hpj
    exact absurd hpj (by decide)

/-- Witness for claim C9 at a concrete input: the two page files enumerated
with the dynamic one first. -/
theorem c9_settings_before_id_witness :
    "/user/settings" ∈ (discover_routes
        [("user/[id].tg", ReadOutcome.ok ""), ("user/settings.tg", ReadOutcome.ok "")]).map
        (fun c => c.path) ∧
    "/user/[id]" ∈ (discover_routes
        [("user/[id].tg", ReadOutcome.ok ""), ("user/settings.tg", ReadOutcome.ok "")]).map
        (fun c => c.path) ∧
    ∀ i j : Fin (discover_routes
        [("user/[id].tg", ReadOutcome.ok ""), ("user/settings.tg", ReadOutcome.ok "")]).length,
      ((discover_routes
        [("user/[id].tg", ReadOutcome.ok ""), ("user/settings.tg", ReadOutcome.ok "")]).get i).path
          = "/user/[id]" →
      ((discover_routes
        [("user/[id].tg", ReadOutcome.ok ""), ("user/settings.tg", ReadOutcome.ok "")]).get j).path
          = "/user/settings" → j < i :=
  c9_settings_before_id
    [("user/[id].tg", ReadOutcome.ok ""), ("user/settings.tg", ReadOutcome.ok "")]
    ⟨ReadOutcome.ok "", by decide⟩ ⟨ReadOutcome.ok "", by decide⟩

end TagonPy
